import Mathlib

/-!
Shallow embedding of the evolvim simulation core (tiles, terrain, climate,
board orchestration, NEAT genome) and proofs about its specification.

Rust `f64` values are modelled as rationals (`ℚ`); transcendental library
calls (`f64::exp`) and unspecified numeric constants are abstracted into an
`Env` record, universally quantified in the theorems.  Rust panics are
modelled as `none` / `Option` results.
-/

namespace Evolvim

/-- Modelled from the spec: numeric environment for parts not under `src/`.
`exp` stands for `f64::exp` (treated as an opaque function on rationals);
`FOOD_GROWTH_RATE` and `MAX_GROWTH_LEVEL` are configuration constants from
`constants.rs`, which is not in the sources. -/
structure Env where
  exp : ℚ → ℚ
  FOOD_GROWTH_RATE : ℚ
  MAX_GROWTH_LEVEL : ℚ

/-- Modelled from the spec: `Climate` (`climate.rs` is not under `src/`).
The spec describes a temperature/growth-rate signal that is a pure function
of time and an integrated growth between two time points; both are kept as
abstract function fields.  `update t` stores the growth rate at `t` as the
current temperature (the board code comments call the temperature "the
current growth rate based on the season"). -/
structure Climate where
  growth_rate : ℚ → ℚ
  growth_over_range : ℚ → ℚ → ℚ
  temperature : ℚ

def Climate.update (c : Climate) (t : ℚ) : Climate :=
  { c with temperature := c.growth_rate t }

def Climate.get_temperature (c : Climate) : ℚ := c.temperature

def Climate.get_growth_rate (c : Climate) (t : ℚ) : ℚ := c.growth_rate t

def Climate.get_growth_over_time_range (c : Climate) (t1 t2 : ℚ) : ℚ :=
  c.growth_over_range t1 t2

/-- `LandTile` from `terrain/tile.rs`. -/
structure LandTile where
  fertility : ℚ
  food_level : ℚ
  food_type : ℚ
  last_update_time : ℚ
deriving DecidableEq

namespace LandTile

/-- `LandTile::new`: begins with `food_level` set to `fertility` and
`last_update_time` set to `0`. -/
def new (fertility food_type : ℚ) : LandTile :=
  { fertility := fertility
    food_level := fertility
    food_type := food_type
    last_update_time := 0 }

/-- `LandTile::remove_food`: takes the maximum of 0 and `food_level` after
subtraction. -/
def remove_food (t : LandTile) (food_to_remove : ℚ) : LandTile :=
  { t with food_level := max 0 (t.food_level - food_to_remove) }

/-- `LandTile::add_food`: takes the maximum of 0 and `food_level` after
adding. -/
def add_food (t : LandTile) (food_to_add : ℚ) : LandTile :=
  { t with food_level := max 0 (t.food_level + food_to_add) }

/-- `LandTile::update`. -/
def update (env : Env) (t : LandTile) (time : ℚ) (climate : Climate) : LandTile :=
  if time - t.last_update_time > 1 / 100000 then
    let growth_change := climate.get_growth_over_time_range time t.last_update_time
    let t1 :=
      if growth_change ≤ 0 then
        let food_to_remove :=
          t.food_level - t.food_level * env.exp (growth_change * env.FOOD_GROWTH_RATE)
        t.remove_food food_to_remove
      else if t.food_level < env.MAX_GROWTH_LEVEL then
        let new_dist_to_max :=
          (env.MAX_GROWTH_LEVEL - t.food_level)
            * env.exp (-growth_change * t.fertility * env.FOOD_GROWTH_RATE)
        let food_to_add := env.MAX_GROWTH_LEVEL - new_dist_to_max - t.food_level
        t.add_food food_to_add
      else t
    { t1 with last_update_time := time }
  else t

end LandTile

/-- `Tile` from `terrain/tile.rs`: water or land. -/
inductive Tile where
  | Water : Tile
  | Land : LandTile → Tile
deriving DecidableEq

namespace Tile

/-- `Tile::new`: fertility above 1 makes water, otherwise land with the
fertility clamped from below at 0. -/
def new (fertility food_type : ℚ) : Tile :=
  if fertility > 1 then Tile.Water
  else Tile.Land (LandTile.new (max fertility 0) food_type)

def is_water : Tile → Bool
  | Tile.Water => true
  | Tile.Land _ => false

/-- `Tile::get_food_level`: returns 0 for water. -/
def get_food_level : Tile → ℚ
  | Tile.Water => 0
  | Tile.Land t => t.food_level

/-- `Tile::get_fertility`: returns 0 for water. -/
def get_fertility : Tile → ℚ
  | Tile.Water => 0
  | Tile.Land t => t.fertility

/-- `Tile::update`: water does nothing; land delegates to `LandTile::update`. -/
def update (env : Env) : Tile → ℚ → Climate → Tile
  | Tile.Water, _, _ => Tile.Water
  | Tile.Land t, time, climate => Tile.Land (t.update env time climate)

/-- `Tile::add_food_or_nothing`: does nothing for water tiles. -/
def add_food_or_nothing : Tile → ℚ → Tile
  | Tile.Water, _ => Tile.Water
  | Tile.Land t, food_to_add => Tile.Land (t.add_food food_to_add)

/-- `Tile::remove_food`: panics (`none`) on a water tile when the amount is
strictly positive, otherwise delegates / does nothing. -/
def remove_food : Tile → ℚ → Option Tile
  | Tile.Water, food_to_remove =>
      if food_to_remove > 0 then none else some Tile.Water
  | Tile.Land t, food_to_remove => some (Tile.Land (t.remove_food food_to_remove))

end Tile

/-- Modelled from the spec: `Terrain` (`terrain/mod.rs` is not under `src/`):
a grid of tiles whose global update applies `Tile::update` to every tile. -/
structure Terrain where
  tiles : List (List Tile)

def Terrain.update_all (env : Env) (tr : Terrain) (time : ℚ) (climate : Climate) :
    Terrain :=
  { tiles := tr.tiles.map (fun row => row.map (fun t => t.update env time climate)) }

/-! ### NEAT genome (`neat/genome/mod.rs`) -/

def AMOUNT_INPUT : ℕ := 3

def AMOUNT_OUTPUT : ℕ := 2

/-- Initial value of the process-wide counter
`static mut INNOVATION_NUMBER: usize = AMOUNT_INPUT * AMOUNT_OUTPUT`.
The counter itself is modelled by explicit state passing. -/
def INNOVATION_NUMBER : ℕ := AMOUNT_INPUT * AMOUNT_OUTPUT

/-- `get_innovation_number`: pre-increments the global counter and returns the
new value; modelled as a state transformer on the counter value. -/
def get_innovation_number (s : ℕ) : ℕ × ℕ := (s + 1, s + 1)

/-- `innovRun N s`: the values returned by `N` successive calls of
`get_innovation_number` starting from counter state `s`, in call order. -/
def innovRun : ℕ → ℕ → List ℕ
  | 0, _ => []
  | n + 1, s => (get_innovation_number s).1 :: innovRun n (get_innovation_number s).2

/-- Modelled from the spec: `NodeType` (`neat/genome/gene.rs` is not under
`src/`; the spec gives `type ∈ {Sensor, Hidden, Output}`). -/
inductive NodeType where
  | Sensor : NodeType
  | Hidden : NodeType
  | Output : NodeType
deriving DecidableEq

/-- Modelled from the spec: `NodeGene{id, type}` (`gene.rs` is not under
`src/`; the fields are exactly those constructed in `genome/mod.rs`). -/
structure NodeGene where
  node_type : NodeType
  id : ℕ
deriving DecidableEq

/-- Modelled from the spec: `ConnectionGene{from, to, weight, enabled,
innovation_number}` (`gene.rs` is not under `src/`; the fields are exactly
those constructed in `genome/mod.rs`).  `from` is a Lean keyword, so the
endpoint fields are named `from_node` / `to_node`. -/
structure ConnectionGene where
  from_node : ℕ
  to_node : ℕ
  weight : ℚ
  enabled : Bool
  innovation_number : ℕ
deriving DecidableEq

structure Genome where
  node_genome : List NodeGene
  connection_genome : List ConnectionGene
deriving DecidableEq

/-- `Genome::get_random_weight`: `rand::random::<f64>() * 2.0 - 1.0`, with the
stream of `rand::random` draws abstracted as a function from draw index. -/
def get_random_weight (rand : ℕ → ℚ) (k : ℕ) : ℚ := rand k * 2 - 1

namespace Genome

/-- `Genome::add_node`: pushes a node gene. -/
def add_node (g : Genome) (node_type : NodeType) (id : ℕ) : Genome :=
  { g with node_genome := g.node_genome ++ [{ node_type := node_type, id := id }] }

/-- `Genome::add_connection`: pushes an enabled connection whose innovation
number comes from `get_innovation_number`; threads the counter state. -/
def add_connection (g : Genome) (fr toId : ℕ) (weight : ℚ) (s : ℕ) : Genome × ℕ :=
  let p := get_innovation_number s
  ({ g with
      connection_genome := g.connection_genome ++
        [{ from_node := fr, to_node := toId, weight := weight,
           enabled := true, innovation_number := p.1 }] },
   p.2)

/-- Index into `node_genome` (`self.node_genome[i]`); the dummy is never
reached at the call sites below. -/
def nodeIdAt (g : Genome) (i : ℕ) : ℕ :=
  match g.node_genome.get? i with
  | some n => n.id
  | none => 0

/-- Id of `self.node_genome.last().unwrap()`; the dummy is never reached at
the call sites below. -/
def lastNodeId (g : Genome) : ℕ :=
  match g.node_genome.getLast? with
  | some n => n.id
  | none => 0

/-- `Genome::new_fully_linked`, with the random weight draws abstracted as
`rand`.  The fold state mirrors the source's mutable locals: the genome under
construction, `node_counter`, `con_counter` and the index of the next random
draw.  The initial connections take their innovation numbers from
`con_counter`, not from the global counter. -/
def new_fully_linked (rand : ℕ → ℚ) : Genome :=
  let g0 : Genome := { node_genome := [], connection_genome := [] }
  let p1 : Genome × ℕ :=
    (List.range AMOUNT_INPUT).foldl
      (fun (p : Genome × ℕ) _ => (p.1.add_node NodeType.Sensor p.2, p.2 + 1))
      (g0, 1)
  let p2 : Genome × ℕ × ℕ × ℕ :=
    (List.range AMOUNT_OUTPUT).foldl
      (fun (p : Genome × ℕ × ℕ × ℕ) _ =>
        let g := p.1.add_node NodeType.Output p.2.1
        let node_counter := p.2.1 + 1
        let toId := g.lastNodeId
        let q : Genome × ℕ × ℕ :=
          (List.range AMOUNT_INPUT).foldl
            (fun (q : Genome × ℕ × ℕ) i =>
              let fr := q.1.nodeIdAt i
              ({ q.1 with
                  connection_genome := q.1.connection_genome ++
                    [{ from_node := fr, to_node := toId,
                       weight := get_random_weight rand q.2.2,
                       enabled := true, innovation_number := q.2.1 }] },
               q.2.1 + 1, q.2.2 + 1))
            (g, p.2.2.1, p.2.2.2)
        (q.1, node_counter, q.2.1, q.2.2))
      (p1.1, p1.2, 1, 0)
  p2.1

end Genome

/-! ### Board (`board.rs`) -/

def OBJECT_TIMESTEPS_PER_YEAR : ℚ := 100

def BoardSize := ℕ × ℕ

/-- Modelled from the spec: the per-creature lifecycle hooks of §4.3
(`softbody.rs` and `sbip.rs` are not under `src/`).  `C` is the creature
type, `S` the spatial-index type, `R` the random-generator state.  Each hook
is an abstract function with exactly the read/write footprint the spec and
the `board.rs` call sites give it. -/
structure Hooks (C S R : Type) where
  collide : C → S → C
  record_energy : C → C
  metabolize : C → ℚ → ℚ → C
  run_brain : C → Terrain → C
  use_output : C → Terrain → BoardSize → ℚ → Climate → S → ℚ → C × Terrain
  should_die : C → Bool
  return_to_earth : C → ℚ → BoardSize → Terrain → Climate → S → Terrain × S
  try_reproduce : C → ℚ → S → BoardSize → C × Option C × S
  apply_motions : C → ℚ → BoardSize → Terrain → S → C × S
  new_random : BoardSize → ℚ → R → C × R
  set_sbip : C → S → BoardSize → S
  get_birth_time : C → ℚ
  get_energy : C → ℚ

/-- `Board` from `board.rs`; the `selected_creature` wrapper collapses to an
`Option C`, and the random source used by creature generation is threaded
explicitly as `rng`. -/
structure Board (C S R : Type) where
  board_width : ℕ
  board_height : ℕ
  terrain : Terrain
  creature_minimum : ℕ
  soft_bodies_in_positions : S
  creatures : List C
  creature_id_up_to : ℕ
  year : ℚ
  climate : Climate
  selected_creature : Option C
  rng : R

namespace Board

variable {C S R : Type}

def get_board_size (b : Board C S R) : BoardSize := (b.board_width, b.board_height)

def get_time (b : Board C S R) : ℚ := b.year

def get_population_size (b : Board C S R) : ℕ := b.creatures.length

def get_creature_minimum (b : Board C S R) : ℕ := b.creature_minimum

/-- Loop of the `use_output` pass in `Board::update_creatures`: each brain in
turn acts on the terrain, which is threaded through the loop. -/
def useOutputLoop (hk : Hooks C S R) (board_size : BoardSize) (time : ℚ)
    (climate : Climate) (sbip : S) (time_step : ℚ) :
    List C → Terrain → List C × Terrain
  | [], t => ([], t)
  | c :: cs, t =>
      let q := hk.use_output c t board_size time climate sbip time_step
      let p := useOutputLoop hk board_size time climate sbip time_step cs q.2
      (q.1 :: p.1, p.2)

/-- `Board::update_creatures`: first loop runs `collide`, `record_energy` and
`metabolize` on each creature; then `update_brains` runs each brain; then the
`use_output` loop lets each brain act, threading the terrain through. -/
def update_creatures (hk : Hooks C S R) (time_step : ℚ) (b : Board C S R) :
    Board C S R :=
  let time := b.year
  let board_size := b.get_board_size
  let cs1 := b.creatures.map (fun c =>
    let c := hk.collide c b.soft_bodies_in_positions
    let c := hk.record_energy c
    hk.metabolize c time_step time)
  let cs2 := cs1.map (fun c => hk.run_brain c b.terrain)
  let p := useOutputLoop hk board_size time b.climate b.soft_bodies_in_positions
    time_step cs2 b.terrain
  { b with creatures := p.1, terrain := p.2 }

/-- Loop of `Board::remove_dead_creatures`: a creature whose `should_die`
holds runs `return_to_earth`, is unselected if it was selected, and is
dropped from the population; the others are kept in order. -/
def removeDeadLoop [DecidableEq C] (hk : Hooks C S R) (time : ℚ)
    (board_size : BoardSize) (climate : Climate) :
    List C → Terrain → S → Option C → List C × Terrain × S × Option C
  | [], t, sbip, sel => ([], t, sbip, sel)
  | c :: cs, t, sbip, sel =>
      if hk.should_die c then
        let q := hk.return_to_earth c time board_size t climate sbip
        let sel1 := if sel = some c then none else sel
        removeDeadLoop hk time board_size climate cs q.1 q.2 sel1
      else
        let p := removeDeadLoop hk time board_size climate cs t sbip sel
        (c :: p.1, p.2)

/-- `Board::remove_dead_creatures`. -/
def remove_dead_creatures [DecidableEq C] (hk : Hooks C S R) (b : Board C S R) :
    Board C S R :=
  let time := b.get_time
  let board_size := b.get_board_size
  let p := removeDeadLoop hk time board_size b.climate b.creatures b.terrain
    b.soft_bodies_in_positions b.selected_creature
  { b with
      creatures := p.1
      terrain := p.2.1
      soft_bodies_in_positions := p.2.2.1
      selected_creature := p.2.2.2 }

/-- Loop of `Board::creatures_reproduce`: collects the babies produced by
`try_reproduce`, threading the spatial index. -/
def reproduceLoop (hk : Hooks C S R) (time : ℚ) (board_size : BoardSize) :
    List C → S → List C × List C × S
  | [], sbip => ([], [], sbip)
  | c :: cs, sbip =>
      let q := hk.try_reproduce c time sbip board_size
      let p := reproduceLoop hk time board_size cs q.2.2
      (q.1 :: p.1,
       (match q.2.1 with
        | some baby => baby :: p.2.1
        | none => p.2.1),
       p.2.2)

/-- `Board::creatures_reproduce`: every creature may produce a baby via
`try_reproduce`; the babies are pushed onto the population afterwards. -/
def creatures_reproduce (hk : Hooks C S R) (b : Board C S R) : Board C S R :=
  let time := b.get_time
  let board_size := b.get_board_size
  let p := reproduceLoop hk time board_size b.creatures b.soft_bodies_in_positions
  { b with creatures := p.1 ++ p.2.1, soft_bodies_in_positions := p.2.2 }

/-- Loop body of `Board::maintain_creature_minimum`: spawn `n` random
creatures, each inserted into the spatial index twice (the second call seeds
the previous-position tracking), pushing each onto the population and
incrementing `creature_id_up_to`. -/
def maintainAux (hk : Hooks C S R) (board_size : BoardSize) (year : ℚ) :
    ℕ → List C × S × R × ℕ → List C × S × R × ℕ
  | 0, st => st
  | n + 1, st =>
      let p := hk.new_random board_size year st.2.2.1
      let sbip := hk.set_sbip p.1 st.2.1 board_size
      let sbip := hk.set_sbip p.1 sbip board_size
      maintainAux hk board_size year n
        (st.1 ++ [p.1], sbip, p.2, st.2.2.2 + 1)

/-- `Board::maintain_creature_minimum`: adds random creatures until there are
at least `creature_minimum`; the `while` loop runs exactly
`creature_minimum - creatures.len()` times (truncated subtraction). -/
def maintain_creature_minimum (hk : Hooks C S R) (b : Board C S R) :
    Board C S R :=
  let n := b.creature_minimum - b.creatures.length
  let st := maintainAux hk b.get_board_size b.year n
    (b.creatures, b.soft_bodies_in_positions, b.rng, b.creature_id_up_to)
  { b with
      creatures := st.1
      soft_bodies_in_positions := st.2.1
      rng := st.2.2.1
      creature_id_up_to := st.2.2.2 }

/-- Loop of `Board::move_creatures`, threading the spatial index. -/
def moveLoop (hk : Hooks C S R) (scaled_step : ℚ) (board_size : BoardSize)
    (terrain : Terrain) : List C → S → List C × S
  | [], sbip => ([], sbip)
  | c :: cs, sbip =>
      let q := hk.apply_motions c scaled_step board_size terrain sbip
      let p := moveLoop hk scaled_step board_size terrain cs q.2
      (q.1 :: p.1, p.2)

/-- `Board::move_creatures`: applies `apply_motions` with the scaled time
step to every creature, threading the spatial index. -/
def move_creatures (hk : Hooks C S R) (time_step : ℚ) (b : Board C S R) :
    Board C S R :=
  let board_size := b.get_board_size
  let p := moveLoop hk (time_step * OBJECT_TIMESTEPS_PER_YEAR) board_size
    b.terrain b.creatures b.soft_bodies_in_positions
  { b with creatures := p.1, soft_bodies_in_positions := p.2 }

/-- The opening phase of `Board::update`: advance `year`, update the climate,
and force a full terrain refresh exactly when the growth-rate delta entering
the new time window and the delta leaving it have opposite signs. -/
def advance_clock_and_terrain (env : Env) (time_step : ℚ) (b : Board C S R) :
    Board C S R :=
  let b := { b with year := b.year + time_step }
  let b := { b with climate := b.climate.update b.year }
  let temp_change_into_frame :=
    b.climate.get_temperature - b.climate.get_growth_rate (b.year - time_step)
  let temp_change_out_of_frame :=
    b.climate.get_growth_rate (b.year + time_step) - b.climate.get_temperature
  if temp_change_into_frame * temp_change_out_of_frame < 0 then
    { b with terrain := b.terrain.update_all env b.year b.climate }
  else b

/-- `Board::update`, translated statement by statement from `board.rs`. -/
def update [DecidableEq C] (env : Env) (hk : Hooks C S R) (time_step : ℚ)
    (b : Board C S R) : Board C S R :=
  let b := { b with year := b.year + time_step }
  let b := { b with climate := b.climate.update b.year }
  let temp_change_into_frame :=
    b.climate.get_temperature - b.climate.get_growth_rate (b.year - time_step)
  let temp_change_out_of_frame :=
    b.climate.get_growth_rate (b.year + time_step) - b.climate.get_temperature
  let b :=
    if temp_change_into_frame * temp_change_out_of_frame < 0 then
      { b with terrain := b.terrain.update_all env b.year b.climate }
    else b
  let b := b.update_creatures hk time_step
  let b := b.remove_dead_creatures hk
  let b := b.creatures_reproduce hk
  let b := b.maintain_creature_minimum hk
  b.move_creatures hk time_step

/-- `Board::select_oldest`: `self.creatures[0]` panics (`none`) on an empty
population; otherwise folds over the population keeping the creature with the
strictly smaller `birth_time`. -/
def select_oldest (hk : Hooks C S R) (b : Board C S R) : Option (Board C S R) :=
  match b.creatures with
  | [] => none
  | c0 :: _ =>
      let oldest := b.creatures.foldl
        (fun c_old c =>
          if hk.get_birth_time c < hk.get_birth_time c_old then c else c_old)
        c0
      some { b with selected_creature := some oldest }

/-- `Board::select_biggest`: `self.creatures[0]` panics (`none`) on an empty
population; otherwise folds over the population keeping the creature with the
strictly larger energy. -/
def select_biggest (hk : Hooks C S R) (b : Board C S R) : Option (Board C S R) :=
  match b.creatures with
  | [] => none
  | c0 :: _ =>
      let biggest := b.creatures.foldl
        (fun c_old c =>
          if hk.get_energy c > hk.get_energy c_old then c else c_old)
        c0
      some { b with selected_creature := some biggest }

end Board

/-! ### Seasons (`Board::get_season` and `ECSBoard::get_season`) -/

def SEASONS : List String := ["Winter", "Spring", "Summer", "Autumn"]

/-- Truncation toward zero, as Rust's float-to-integer conversion inside
`%`. -/
def rtrunc (a : ℚ) : ℤ := if 0 ≤ a then ⌊a⌋ else ⌈a⌉

/-- Rust's `%` on `f64`: remainder of truncated division. -/
def rust_rem (a b : ℚ) : ℚ := a - b * rtrunc (a / b)

/-- Common body of `Board::get_season` and `ECSBoard::get_season`:
`SEASONS[((year % 1.0) * 4.0).floor() as usize]`, with the out-of-bounds
index panic modelled as `none` (the `as usize` cast saturates below at 0,
which `Int.toNat` matches). -/
def get_season_of_year (year : ℚ) : Option String :=
  let season : ℕ := (⌊rust_rem year 1 * 4⌋).toNat
  SEASONS.get? season

def Board.get_season {C S R : Type} (b : Board C S R) : Option String :=
  get_season_of_year b.year

/-- The three middle phases of `Board::update` before the population floor is
restored: per-creature update, removal of the dead, reproduction. -/
def after_reproduction_phase {C S R : Type} [DecidableEq C] (env : Env)
    (hk : Hooks C S R) (time_step : ℚ) (b : Board C S R) : Board C S R :=
  (((b.advance_clock_and_terrain env time_step).update_creatures hk
      time_step).remove_dead_creatures hk).creatures_reproduce hk

/-! ### Concrete instances used to evaluate the model on closed inputs -/

/-- Concrete numeric environment (an arbitrary instantiation of the abstract
`exp` and the configuration constants). -/
def env0 : Env := { exp := fun _ => 1, FOOD_GROWTH_RATE := 1, MAX_GROWTH_LEVEL := 1 }

/-- Concrete climate with a constant zero growth-rate signal. -/
def climate0 : Climate :=
  { growth_rate := fun _ => 0, growth_over_range := fun _ _ => 0, temperature := 0 }

def terrain0 : Terrain := { tiles := [[Tile.Water, Tile.new (1/2) 0]] }

/-- Concrete trivial creature hooks over `C = ℕ`, `S = Unit`, `R = Unit`: no
creature dies, nobody reproduces, random creatures are `0`, and a creature's
number doubles as its birth time and energy. -/
def hk0 : Hooks ℕ Unit Unit :=
  { collide := fun c _ => c
    record_energy := fun c => c
    metabolize := fun c _ _ => c
    run_brain := fun c _ => c
    use_output := fun c t _ _ _ _ _ => (c, t)
    should_die := fun _ => false
    return_to_earth := fun _ _ _ t _ s => (t, s)
    try_reproduce := fun c _ s _ => (c, none, s)
    apply_motions := fun c _ _ _ s => (c, s)
    new_random := fun _ _ r => (0, r)
    set_sbip := fun _ s _ => s
    get_birth_time := fun c => (c : ℚ)
    get_energy := fun c => (c : ℚ) }

/-- Concrete board with an empty population. -/
def b0 : Board ℕ Unit Unit :=
  { board_width := 2
    board_height := 2
    terrain := terrain0
    creature_minimum := 1
    soft_bodies_in_positions := ()
    creatures := []
    creature_id_up_to := 0
    year := 0
    climate := climate0
    selected_creature := none
    rng := () }

/-- Concrete board with population `[5, 7]`. -/
def b1 : Board ℕ Unit Unit := { b0 with creatures := [5, 7] }

/-! ## Theorems -/

lemma rust_rem_one_eq_fract (y : ℚ) (hy : 0 ≤ y) : rust_rem y 1 = Int.fract y := by
  unfold rust_rem rtrunc
  rw [div_one, if_pos hy, one_mul]
  exact Int.self_sub_floor y

/-- C4: `LandTile::remove_food` and `LandTile::add_food` leave `food_level`
at `max 0 result` for any rational amount of any sign, so `food_level ≥ 0`
is preserved by `remove_food`, `add_food` and `update`; `add_food` itself
enforces no upper ceiling (its result is exactly `max 0 (food_level + amt)`). -/
theorem land_tile_food_level_clamped (env : Env) (t : LandTile) (amt time : ℚ)
    (climate : Climate) :
    (t.remove_food amt).food_level = max 0 (t.food_level - amt)
    ∧ (t.add_food amt).food_level = max 0 (t.food_level + amt)
    ∧ 0 ≤ (t.remove_food amt).food_level
    ∧ 0 ≤ (t.add_food amt).food_level
    ∧ (0 ≤ t.food_level → 0 ≤ (t.update env time climate).food_level) := by
  refine ⟨rfl, rfl, le_max_left _ _, le_max_left _ _, ?_⟩
  intro h
  unfold LandTile.update
  split
  · dsimp only
    split
    · exact le_max_left _ _
    · split
      · exact le_max_left _ _
      · exact h
  · exact h

/-- Witness for C4 at a concrete land tile. -/
theorem land_tile_food_level_clamped_witness :
    0 ≤ ((LandTile.new (1/2) 0).update env0 1 climate0).food_level :=
  (land_tile_food_level_clamped env0 (LandTile.new (1/2) 0) 0 1 climate0).2.2.2.2
    (by norm_num [LandTile.new])

/-- C5: `Tile::remove_food` on a water tile panics exactly when the amount is
strictly positive and is a no-op otherwise; `Tile::add_food_or_nothing` on
water is always a no-op; water tiles never hold food. -/
theorem water_tile_rejects_food (amt : ℚ) :
    (Tile.remove_food Tile.Water amt = none ↔ 0 < amt)
    ∧ (amt ≤ 0 → Tile.remove_food Tile.Water amt = some Tile.Water)
    ∧ Tile.add_food_or_nothing Tile.Water amt = Tile.Water
    ∧ Tile.get_food_level Tile.Water = 0 := by
  have hdef : Tile.remove_food Tile.Water amt
      = if amt > 0 then none else some Tile.Water := rfl
  refine ⟨?_, ?_, rfl, rfl⟩
  · rw [hdef]
    split
    · simp only [true_iff]
      assumption
    · simp only [reduceCtorEq, false_iff, not_lt]
      next h => exact not_lt.mp h
  · intro h
    rw [hdef, if_neg (not_lt.mpr h)]

/-- Witness for C5 at `amt = -1`. -/
theorem water_tile_rejects_food_witness :
    Tile.remove_food Tile.Water (-1) = some Tile.Water :=
  (water_tile_rejects_food (-1)).2.1 (by norm_num)

/-- C10: `Tile::new` makes water exactly when `fertility > 1`, otherwise a
land tile with the fertility clamped to `max fertility 0 ∈ [0, 1]`, the food
level initialized to that clamped fertility, and `last_update_time = 0`. -/
theorem tile_new_spec (f ft : ℚ) :
    (1 < f → Tile.new f ft = Tile.Water)
    ∧ (f ≤ 1 →
        Tile.new f ft = Tile.Land
          { fertility := max f 0, food_level := max f 0, food_type := ft,
            last_update_time := 0 }
        ∧ 0 ≤ max f 0 ∧ max f 0 ≤ 1) := by
  constructor
  · intro h
    unfold Tile.new
    rw [if_pos h]
  · intro h
    refine ⟨?_, le_max_right _ _, max_le h (by norm_num)⟩
    unfold Tile.new LandTile.new
    rw [if_neg (not_lt.mpr h)]

/-- Witness for C10 at `fertility = 2` and `fertility = -1`. -/
theorem tile_new_spec_witness :
    Tile.new 2 0 = Tile.Water
    ∧ Tile.new (-1) 0 = Tile.Land
        { fertility := max (-1 : ℚ) 0, food_level := max (-1 : ℚ) 0,
          food_type := 0, last_update_time := 0 } :=
  ⟨(tile_new_spec 2 0).1 (by norm_num), ((tile_new_spec (-1) 0).2 (by norm_num)).1⟩

/-- C8: `get_season` is a pure, period-1 function of `year mod 1` producing
the fixed order Winter, Spring, Summer, Autumn at the sampled years. -/
theorem get_season_spec :
    get_season_of_year 0 = some "Winter"
    ∧ get_season_of_year (26/100) = some "Spring"
    ∧ get_season_of_year (1/2) = some "Summer"
    ∧ get_season_of_year (76/100) = some "Autumn"
    ∧ get_season_of_year 1 = some "Winter"
    ∧ (∀ y : ℚ, 0 ≤ y → get_season_of_year (y + 1) = get_season_of_year y)
    ∧ (∀ y : ℚ, 0 ≤ y → get_season_of_year y = get_season_of_year (rust_rem y 1))
    ∧ (∀ (C S R : Type) (b : Board C S R), b.get_season = get_season_of_year b.year) := by
  have hW0 : (⌊rust_rem (0 : ℚ) 1 * 4⌋).toNat = 0 := by norm_num [rust_rem, rtrunc]
  have hSp : (⌊rust_rem (26/100 : ℚ) 1 * 4⌋).toNat = 1 := by norm_num [rust_rem, rtrunc]
  have hSu : (⌊rust_rem (1/2 : ℚ) 1 * 4⌋).toNat = 2 := by
    norm_num [rust_rem, rtrunc]
    rfl
  have hAu : (⌊rust_rem (76/100 : ℚ) 1 * 4⌋).toNat = 3 := by
    norm_num [rust_rem, rtrunc]
    rfl
  have hW1 : (⌊rust_rem (1 : ℚ) 1 * 4⌋).toNat = 0 := by norm_num [rust_rem, rtrunc]
  refine ⟨by unfold get_season_of_year; rw [hW0]; rfl,
    by unfold get_season_of_year; rw [hSp]; rfl,
    by unfold get_season_of_year; rw [hSu]; rfl,
    by unfold get_season_of_year; rw [hAu]; rfl,
    by unfold get_season_of_year; rw [hW1]; rfl, ?_, ?_, fun _ _ _ _ => rfl⟩
  · intro y hy
    have h1 : rust_rem (y + 1) 1 = rust_rem y 1 := by
      rw [rust_rem_one_eq_fract _ hy, rust_rem_one_eq_fract _ (by linarith)]
      exact_mod_cast Int.fract_add_int y 1
    unfold get_season_of_year
    rw [h1]
  · intro y hy
    have h1 : rust_rem (rust_rem y 1) 1 = rust_rem y 1 := by
      rw [rust_rem_one_eq_fract _ hy,
        rust_rem_one_eq_fract _ (Int.fract_nonneg y)]
      exact Int.fract_fract y
    unfold get_season_of_year
    rw [h1]

/-- Witness for C8: periodicity instantiated at `year = 3/2`. -/
theorem get_season_spec_witness :
    get_season_of_year (3/2 + 1) = get_season_of_year (3/2) :=
  get_season_spec.2.2.2.2.2.1 (3/2) (by norm_num)

lemma innovRun_length : ∀ N s : ℕ, (innovRun N s).length = N := by
  intro N
  induction N with
  | zero => intro s; rfl
  | succ n ih => intro s; simp [innovRun, get_innovation_number, ih]

lemma innovRun_mem_gt : ∀ N s v : ℕ, v ∈ innovRun N s → s < v := by
  intro N
  induction N with
  | zero => intro s v hv; simp [innovRun] at hv
  | succ n ih =>
      intro s v hv
      simp only [innovRun, get_innovation_number, List.mem_cons] at hv
      rcases hv with h | h
      · omega
      · have := ih (s + 1) v h
        omega

lemma innovRun_pairwise : ∀ N s : ℕ, (innovRun N s).Pairwise (· < ·) := by
  intro N
  induction N with
  | zero => intro s; exact List.Pairwise.nil
  | succ n ih =>
      intro s
      simp only [innovRun, get_innovation_number]
      exact List.Pairwise.cons (fun v hv => innovRun_mem_gt n (s + 1) v hv) (ih (s + 1))

/-- The `connection_genome` of `new_fully_linked`, fully evaluated. -/
lemma new_fully_linked_connections (rand : ℕ → ℚ) :
    (Genome.new_fully_linked rand).connection_genome =
      [⟨1, 4, get_random_weight rand 0, true, 1⟩,
       ⟨2, 4, get_random_weight rand 1, true, 2⟩,
       ⟨3, 4, get_random_weight rand 2, true, 3⟩,
       ⟨1, 5, get_random_weight rand 3, true, 4⟩,
       ⟨2, 5, get_random_weight rand 4, true, 5⟩,
       ⟨3, 5, get_random_weight rand 5, true, 6⟩] := rfl

/-- C6: `new_fully_linked` builds exactly 3 sensor and 2 output nodes, all
sensor-to-output connections enabled with endpoints among its own node ids
and weights in `[-1, 1]`; its innovation numbers are exactly
`1 .. AMOUNT_INPUT * AMOUNT_OUTPUT`, identical across any two calls, and
disjoint from everything the global counter can ever return. -/
theorem new_fully_linked_spec (rand : ℕ → ℚ)
    (hr : ∀ k, 0 ≤ rand k ∧ rand k < 1) :
    (Genome.new_fully_linked rand).node_genome.map (fun n => (n.node_type, n.id))
      = [(NodeType.Sensor, 1), (NodeType.Sensor, 2), (NodeType.Sensor, 3),
         (NodeType.Output, 4), (NodeType.Output, 5)]
    ∧ (Genome.new_fully_linked rand).connection_genome.map
        (fun cg => (cg.from_node, cg.to_node))
      = [(1, 4), (2, 4), (3, 4), (1, 5), (2, 5), (3, 5)]
    ∧ (∀ cg ∈ (Genome.new_fully_linked rand).connection_genome,
        cg.enabled = true
        ∧ cg.from_node ∈ (Genome.new_fully_linked rand).node_genome.map NodeGene.id
        ∧ cg.to_node ∈ (Genome.new_fully_linked rand).node_genome.map NodeGene.id
        ∧ -1 ≤ cg.weight ∧ cg.weight ≤ 1)
    ∧ (Genome.new_fully_linked rand).connection_genome.map
        ConnectionGene.innovation_number
      = List.range' 1 (AMOUNT_INPUT * AMOUNT_OUTPUT)
    ∧ (∀ rand2 : ℕ → ℚ,
        (Genome.new_fully_linked rand2).connection_genome.map
          ConnectionGene.innovation_number
        = (Genome.new_fully_linked rand).connection_genome.map
            ConnectionGene.innovation_number)
    ∧ (∀ N s, INNOVATION_NUMBER ≤ s → ∀ v ∈ innovRun N s,
        v ∉ (Genome.new_fully_linked rand).connection_genome.map
          ConnectionGene.innovation_number) := by
  have hw : ∀ k, -1 ≤ get_random_weight rand k ∧ get_random_weight rand k ≤ 1 := by
    intro k
    have h := hr k
    unfold get_random_weight
    constructor <;> linarith [h.1, h.2]
  refine ⟨rfl, rfl, ?_, rfl, fun _ => rfl, ?_⟩
  · intro cg hcg
    rw [new_fully_linked_connections] at hcg
    have hid : (Genome.new_fully_linked rand).node_genome.map NodeGene.id
        = [1, 2, 3, 4, 5] := rfl
    rw [hid]
    simp only [List.mem_cons, List.not_mem_nil, or_false] at hcg
    rcases hcg with rfl | rfl | rfl | rfl | rfl | rfl <;>
      exact ⟨rfl, by norm_num, by norm_num, (hw _).1, (hw _).2⟩
  · intro N s hs v hv hmem
    have h6 : (6 : ℕ) ≤ s := hs
    have hgt : s < v := innovRun_mem_gt N s v hv
    have : v ∈ ([1, 2, 3, 4, 5, 6] : List ℕ) := hmem
    simp only [List.mem_cons, List.not_mem_nil, or_false] at this
    omega

/-- Witness for C6 with the constant draw `1/2`. -/
theorem new_fully_linked_spec_witness :
    (Genome.new_fully_linked (fun _ => 1/2)).connection_genome.map
      ConnectionGene.innovation_number
      = List.range' 1 (AMOUNT_INPUT * AMOUNT_OUTPUT) :=
  (new_fully_linked_spec (fun _ => 1/2) (fun _ => by norm_num)).2.2.2.1

/-- C7: `N` successive calls of `get_innovation_number` (as performed by
`Genome::add_connection`) return `N` distinct values, strictly increasing in
call order, each strictly greater than `AMOUNT_INPUT * AMOUNT_OUTPUT` when
starting from any reachable counter state. -/
theorem innovation_numbers_strictly_increasing (N s : ℕ)
    (hs : INNOVATION_NUMBER ≤ s) :
    (innovRun N s).length = N
    ∧ (innovRun N s).Pairwise (· < ·)
    ∧ (innovRun N s).Nodup
    ∧ (∀ v ∈ innovRun N s, AMOUNT_INPUT * AMOUNT_OUTPUT < v)
    ∧ (∀ (g : Genome) (fr tn : ℕ) (w : ℚ),
        (Genome.add_connection g fr tn w s).1.connection_genome.map
          ConnectionGene.innovation_number
          = g.connection_genome.map ConnectionGene.innovation_number ++ [s + 1]
        ∧ (Genome.add_connection g fr tn w s).2 = s + 1) := by
  have h6 : (6 : ℕ) ≤ s := hs
  refine ⟨innovRun_length N s, innovRun_pairwise N s,
    (innovRun_pairwise N s).imp (fun h => Nat.ne_of_lt h), ?_, ?_⟩
  · intro v hv
    have := innovRun_mem_gt N s v hv
    show 6 < v
    omega
  · intro g fr tn w
    constructor
    · simp [Genome.add_connection, get_innovation_number]
    · rfl

/-- Witness for C7 at two calls from the counter's initial state. -/
theorem innovation_numbers_strictly_increasing_witness :
    (innovRun 2 INNOVATION_NUMBER).length = 2 :=
  (innovation_numbers_strictly_increasing 2 INNOVATION_NUMBER (le_refl _)).1

section BoardLemmas

variable {C S R : Type}

lemma useOutputLoop_length (hk : Hooks C S R) (bs : BoardSize) (time : ℚ)
    (cl : Climate) (sb : S) (ts : ℚ) :
    ∀ (l : List C) (t : Terrain),
      ((Board.useOutputLoop hk bs time cl sb ts l t).1).length = l.length := by
  intro l
  induction l with
  | nil => intro t; rfl
  | cons c cs ih =>
      intro t
      simp [Board.useOutputLoop, ih]

lemma moveLoop_length (hk : Hooks C S R) (sc : ℚ) (bs : BoardSize)
    (tr : Terrain) :
    ∀ (l : List C) (sb : S),
      ((Board.moveLoop hk sc bs tr l sb).1).length = l.length := by
  intro l
  induction l with
  | nil => intro sb; rfl
  | cons c cs ih =>
      intro sb
      simp [Board.moveLoop, ih]

lemma update_creatures_length (hk : Hooks C S R) (ts : ℚ) (b : Board C S R) :
    (b.update_creatures hk ts).creatures.length = b.creatures.length := by
  show (Board.useOutputLoop hk b.get_board_size b.year b.climate
      b.soft_bodies_in_positions ts
      ((b.creatures.map (fun c =>
          hk.metabolize (hk.record_energy (hk.collide c b.soft_bodies_in_positions))
            ts b.year)).map (fun c => hk.run_brain c b.terrain))
      b.terrain).1.length = b.creatures.length
  rw [useOutputLoop_length]
  simp

lemma move_creatures_length (hk : Hooks C S R) (ts : ℚ) (b : Board C S R) :
    (b.move_creatures hk ts).creatures.length = b.creatures.length := by
  show (Board.moveLoop hk (ts * OBJECT_TIMESTEPS_PER_YEAR) b.get_board_size
      b.terrain b.creatures b.soft_bodies_in_positions).1.length = b.creatures.length
  rw [moveLoop_length]

lemma maintainAux_spec (hk : Hooks C S R) (bs : BoardSize) (y : ℚ) :
    ∀ (n : ℕ) (st : List C × S × R × ℕ),
      ∃ added : List C,
        (Board.maintainAux hk bs y n st).1 = st.1 ++ added
        ∧ added.length = n
        ∧ ∀ c ∈ added, ∃ r : R, c = (hk.new_random bs y r).1 := by
  intro n
  induction n with
  | zero =>
      intro st
      exact ⟨[], by simp [Board.maintainAux], rfl, by simp⟩
  | succ m ih =>
      intro st
      obtain ⟨added, heq, hlen, hmem⟩ := ih
        (st.1 ++ [(hk.new_random bs y st.2.2.1).1],
         hk.set_sbip (hk.new_random bs y st.2.2.1).1
           (hk.set_sbip (hk.new_random bs y st.2.2.1).1 st.2.1 bs) bs,
         (hk.new_random bs y st.2.2.1).2, st.2.2.2 + 1)
      refine ⟨(hk.new_random bs y st.2.2.1).1 :: added, ?_, by simp [hlen], ?_⟩
      · show (Board.maintainAux hk bs y m _).1 = _
        rw [heq]
        simp
      · intro c hc
        rcases List.mem_cons.mp hc with h | h
        · exact ⟨st.2.2.1, h⟩
        · exact hmem c h

lemma maintain_length (hk : Hooks C S R) (b : Board C S R) :
    (b.maintain_creature_minimum hk).creatures.length
      = max b.creature_minimum b.creatures.length := by
  obtain ⟨added, heq, hlen, _⟩ := maintainAux_spec hk b.get_board_size b.year
    (b.creature_minimum - b.creatures.length)
    (b.creatures, b.soft_bodies_in_positions, b.rng, b.creature_id_up_to)
  have hshow : (b.maintain_creature_minimum hk).creatures
      = (Board.maintainAux hk b.get_board_size b.year
          (b.creature_minimum - b.creatures.length)
          (b.creatures, b.soft_bodies_in_positions, b.rng, b.creature_id_up_to)).1 := rfl
  rw [hshow, heq]
  show (b.creatures ++ added).length = _
  rw [List.length_append, hlen]
  omega

lemma advance_year (env : Env) (ts : ℚ) (b : Board C S R) :
    (b.advance_clock_and_terrain env ts).year = b.year + ts := by
  unfold Board.advance_clock_and_terrain
  dsimp only
  split <;> rfl

lemma advance_minimum (env : Env) (ts : ℚ) (b : Board C S R) :
    (b.advance_clock_and_terrain env ts).creature_minimum = b.creature_minimum := by
  unfold Board.advance_clock_and_terrain
  dsimp only
  split <;> rfl

/-- The fold of `select_oldest` returns an element of `c0 :: l` whose `f` is
less than or equal to `f` of the initial element and of every list element. -/
lemma keepmin_spec (f : C → ℚ) :
    ∀ (l : List C) (c0 : C),
      f (l.foldl (fun c_old c => if f c < f c_old then c else c_old) c0) ≤ f c0
      ∧ (∀ c ∈ l, f (l.foldl (fun c_old c => if f c < f c_old then c else c_old) c0) ≤ f c)
      ∧ (l.foldl (fun c_old c => if f c < f c_old then c else c_old) c0) ∈ c0 :: l := by
  intro l
  induction l with
  | nil => intro c0; exact ⟨le_refl _, by simp, by simp⟩
  | cons c1 tl ih =>
      intro c0
      simp only [List.foldl_cons]
      by_cases h : f c1 < f c0
      · rw [if_pos h]
        obtain ⟨h1, h2, h3⟩ := ih c1
        refine ⟨le_trans h1 (le_of_lt h), ?_, ?_⟩
        · intro c hc
          rcases List.mem_cons.mp hc with rfl | hc
          · exact h1
          · exact h2 c hc
        · rcases List.mem_cons.mp h3 with h4 | h4 <;> simp [h4]
      · rw [if_neg h]
        obtain ⟨h1, h2, h3⟩ := ih c0
        refine ⟨h1, ?_, ?_⟩
        · intro c hc
          rcases List.mem_cons.mp hc with rfl | hc
          · exact le_trans h1 (not_lt.mp h)
          · exact h2 c hc
        · rcases List.mem_cons.mp h3 with h4 | h4 <;> simp [h4]

/-- The fold of `select_biggest` returns an element of `c0 :: l` whose `f` is
greater than or equal to `f` of the initial element and of every list
element. -/
lemma keepmax_spec (f : C → ℚ) :
    ∀ (l : List C) (c0 : C),
      f c0 ≤ f (l.foldl (fun c_old c => if f c > f c_old then c else c_old) c0)
      ∧ (∀ c ∈ l, f c ≤ f (l.foldl (fun c_old c => if f c > f c_old then c else c_old) c0))
      ∧ (l.foldl (fun c_old c => if f c > f c_old then c else c_old) c0) ∈ c0 :: l := by
  intro l
  induction l with
  | nil => intro c0; exact ⟨le_refl _, by simp, by simp⟩
  | cons c1 tl ih =>
      intro c0
      simp only [List.foldl_cons]
      by_cases h : f c1 > f c0
      · rw [if_pos h]
        obtain ⟨h1, h2, h3⟩ := ih c1
        refine ⟨le_trans (le_of_lt h) h1, ?_, ?_⟩
        · intro c hc
          rcases List.mem_cons.mp hc with rfl | hc
          · exact h1
          · exact h2 c hc
        · rcases List.mem_cons.mp h3 with h4 | h4 <;> simp [h4]
      · rw [if_neg h]
        obtain ⟨h1, h2, h3⟩ := ih c0
        refine ⟨h1, ?_, ?_⟩
        · intro c hc
          rcases List.mem_cons.mp hc with rfl | hc
          · exact le_trans (not_lt.mp h) h1
          · exact h2 c hc
        · rcases List.mem_cons.mp h3 with h4 | h4 <;> simp [h4]

end BoardLemmas

/-- C1: `Board::update` is exactly the composition, in this order, of the
clock/climate/terrain phase, the per-creature update phase, dead-creature
removal, reproduction, the population-minimum top-up, and motion
integration — no phase reordered or skipped. -/
theorem update_phase_order {C S R : Type} [DecidableEq C] (env : Env)
    (hk : Hooks C S R) (ts : ℚ) (b : Board C S R) :
    Board.update env hk ts b =
      Board.move_creatures hk ts
        (Board.maintain_creature_minimum hk
          (Board.creatures_reproduce hk
            (Board.remove_dead_creatures hk
              (Board.update_creatures hk ts
                (Board.advance_clock_and_terrain env ts b))))) := rfl

/-- C2: after `Board::update` the population size is
`max creature_minimum (survivors + offspring)` — hence at least
`creature_minimum`, and exactly the survivors-plus-offspring count when that
already meets the minimum — and the top-up phase only appends newly
randomly generated creatures, never removing any. -/
theorem update_population_floor {C S R : Type} [DecidableEq C] (env : Env)
    (hk : Hooks C S R) (ts : ℚ) (b : Board C S R) :
    (Board.update env hk ts b).creatures.length
        = max b.creature_minimum (after_reproduction_phase env hk ts b).creatures.length
    ∧ b.creature_minimum ≤ (Board.update env hk ts b).creatures.length
    ∧ (∃ added : List C,
        ((after_reproduction_phase env hk ts b).maintain_creature_minimum hk).creatures
          = (after_reproduction_phase env hk ts b).creatures ++ added
        ∧ ∀ c ∈ added, ∃ r : R,
            c = (hk.new_random (after_reproduction_phase env hk ts b).get_board_size
                  (after_reproduction_phase env hk ts b).year r).1)
    ∧ (b.creature_minimum ≤ (after_reproduction_phase env hk ts b).creatures.length →
        (Board.update env hk ts b).creatures.length
          = (after_reproduction_phase env hk ts b).creatures.length) := by
  have hmin : (after_reproduction_phase env hk ts b).creature_minimum
      = b.creature_minimum := advance_minimum env ts b
  have hupd : (Board.update env hk ts b).creatures.length
      = max b.creature_minimum (after_reproduction_phase env hk ts b).creatures.length := by
    have h1 : (Board.update env hk ts b).creatures.length
        = (((after_reproduction_phase env hk ts b).maintain_creature_minimum
            hk).move_creatures hk ts).creatures.length := rfl
    rw [h1, move_creatures_length, maintain_length, hmin]
  refine ⟨hupd, ?_, ?_, ?_⟩
  · rw [hupd]
    exact le_max_left _ _
  · obtain ⟨added, heq, _, hmem⟩ := maintainAux_spec hk
      (after_reproduction_phase env hk ts b).get_board_size
      (after_reproduction_phase env hk ts b).year
      ((after_reproduction_phase env hk ts b).creature_minimum
        - (after_reproduction_phase env hk ts b).creatures.length)
      ((after_reproduction_phase env hk ts b).creatures,
       (after_reproduction_phase env hk ts b).soft_bodies_in_positions,
       (after_reproduction_phase env hk ts b).rng,
       (after_reproduction_phase env hk ts b).creature_id_up_to)
    exact ⟨added, heq, hmem⟩
  · intro h
    rw [hupd]
    exact Nat.max_eq_right h

/-- Witness for C2: with trivial hooks on the two-creature board `b1`,
survivors + offspring (2) already meet the minimum (1), and the final
population is exactly that count. -/
theorem update_population_floor_witness :
    (Board.update env0 hk0 1 b1).creatures.length
      = (after_reproduction_phase env0 hk0 1 b1).creatures.length :=
  (update_population_floor env0 hk0 1 b1).2.2.2 (by
    simp [after_reproduction_phase, Board.creatures_reproduce, Board.reproduceLoop,
      Board.remove_dead_creatures, Board.removeDeadLoop, Board.update_creatures,
      Board.useOutputLoop, Board.advance_clock_and_terrain, Board.get_board_size,
      Board.get_time, Climate.update, Climate.get_temperature, Climate.get_growth_rate,
      hk0, b1, b0, climate0])

/-- C9: `Board::update` advances `year` by `time_step`, and its opening phase
refreshes the whole terrain exactly when the growth-rate delta entering the
new time window times the delta leaving it is strictly negative, leaving the
terrain untouched in that phase otherwise. -/
theorem update_terrain_refresh {C S R : Type} [DecidableEq C] (env : Env)
    (hk : Hooks C S R) (ts : ℚ) (b : Board C S R) :
    (Board.update env hk ts b).year = b.year + ts
    ∧ (b.advance_clock_and_terrain env ts).year = b.year + ts
    ∧ (b.advance_clock_and_terrain env ts).terrain =
        (if (b.climate.growth_rate (b.year + ts)
              - b.climate.growth_rate (b.year + ts - ts))
            * (b.climate.growth_rate (b.year + ts + ts)
              - b.climate.growth_rate (b.year + ts)) < 0
         then b.terrain.update_all env (b.year + ts) (b.climate.update (b.year + ts))
         else b.terrain) := by
  refine ⟨?_, advance_year env ts b, ?_⟩
  · have h1 : (Board.update env hk ts b).year
        = (b.advance_clock_and_terrain env ts).year := rfl
    rw [h1, advance_year]
  · unfold Board.advance_clock_and_terrain
    dsimp only
    unfold Climate.update Climate.get_temperature Climate.get_growth_rate
    dsimp only
    split <;> rfl

/-- C3 counterexample: on the concrete empty board `b0` the selection
operations are not a selection-preserving no-op (`some b0`); they panic
(`none`), because `self.creatures[0]` indexes an empty vector. -/
theorem select_empty_counterexample :
    Board.select_oldest hk0 b0 = none
    ∧ Board.select_biggest hk0 b0 = none
    ∧ Board.select_oldest hk0 b0 ≠ some b0
    ∧ Board.select_biggest hk0 b0 ≠ some b0 := by
  refine ⟨rfl, rfl, ?_, ?_⟩ <;> simp [Board.select_oldest, Board.select_biggest, b0]

/-- C3 (amended): on an empty population `select_oldest` / `select_biggest`
panic (index out of bounds on `creatures[0]`) instead of being a no-op; on a
non-empty population they select, by linear scan, a creature with minimal
`birth_time` / maximal energy respectively. -/
theorem select_oldest_biggest_amended {C S R : Type} (hk : Hooks C S R)
    (b : Board C S R) :
    (b.creatures = [] →
      Board.select_oldest hk b = none ∧ Board.select_biggest hk b = none)
    ∧ (b.creatures ≠ [] →
        (∃ cO, Board.select_oldest hk b
            = some { b with selected_creature := some cO }
          ∧ cO ∈ b.creatures
          ∧ ∀ c ∈ b.creatures, hk.get_birth_time cO ≤ hk.get_birth_time c)
        ∧ (∃ cB, Board.select_biggest hk b
            = some { b with selected_creature := some cB }
          ∧ cB ∈ b.creatures
          ∧ ∀ c ∈ b.creatures, hk.get_energy c ≤ hk.get_energy cB)) := by
  constructor
  · intro h
    unfold Board.select_oldest Board.select_biggest
    rw [h]
    exact ⟨rfl, rfl⟩
  · intro h
    obtain ⟨c0, tl, hcs⟩ := List.exists_cons_of_ne_nil h
    constructor
    · refine ⟨(c0 :: tl).foldl
        (fun c_old c => if hk.get_birth_time c < hk.get_birth_time c_old then c
          else c_old) c0, ?_, ?_, ?_⟩
      · unfold Board.select_oldest
        rw [hcs]
      · have h3 := (keepmin_spec hk.get_birth_time (c0 :: tl) c0).2.2
        rw [hcs]
        rcases List.mem_cons.mp h3 with h4 | h4
        · rw [h4]; exact List.mem_cons_self c0 tl
        · exact h4
      · intro c hc
        rw [hcs] at hc
        exact (keepmin_spec hk.get_birth_time (c0 :: tl) c0).2.1 c hc
    · refine ⟨(c0 :: tl).foldl
        (fun c_old c => if hk.get_energy c > hk.get_energy c_old then c
          else c_old) c0, ?_, ?_, ?_⟩
      · unfold Board.select_biggest
        rw [hcs]
      · have h3 := (keepmax_spec hk.get_energy (c0 :: tl) c0).2.2
        rw [hcs]
        rcases List.mem_cons.mp h3 with h4 | h4
        · rw [h4]; exact List.mem_cons_self c0 tl
        · exact h4
      · intro c hc
        rw [hcs] at hc
        exact (keepmax_spec hk.get_energy (c0 :: tl) c0).2.1 c hc

/-- Witness for C3's amended statement on the concrete empty board. -/
theorem select_oldest_biggest_amended_witness :
    Board.select_oldest hk0 b0 = none ∧ Board.select_biggest hk0 b0 = none :=
  (select_oldest_biggest_amended hk0 b0).1 rfl

end Evolvim
